import Mathlib

/-!
Verification development for the tsdav CalDAV/CardDAV client library.

Shallow embedding of the pure core of src/dist/tsdav.esm.js (and its
TypeScript source src/src/collection.ts): URL comparison, the XML text
coercion, the multistatus response mapping of davRequest, the
collection-sync diff engine (smartCollectionSync), the per-account
calendar sync (syncCalendars), the ctag dirtiness check
(isCollectionDirty), the fetchCalendars component-set filter, and the
service-discovery fallback.

Remote interactions (HTTP responses, caller-supplied hooks such as
objectMultiGet / fetchObjects) are modelled as explicit inputs: each
function takes the data the network or hook would have produced.
JavaScript strings are Lean Strings; optional / possibly-undefined values
are Option; JS falsiness of a string is emptiness; decoded XML text
values (which the decoder coerces to numbers or booleans) are a JSValue
variant type.
-/

deriving instance DecidableEq for Except

namespace Tsdav

/-- Model of JavaScript `a.includes(b)`: `b` occurs contiguously in `a`. -/
def jsIncludes (a b : String) : Bool := decide (b.data <:+: a.data)

/-- Model of JavaScript `String.prototype.trim`: drop whitespace from both ends. -/
def jsTrimList (l : List Char) : List Char :=
  ((l.dropWhile Char.isWhitespace).reverse.dropWhile Char.isWhitespace).reverse

/-- String wrapper for `jsTrimList`. -/
def jsTrim (s : String) : String := ⟨jsTrimList s.data⟩

/-- Model of `s.slice(-1) === '/' ? s.slice(0, -1) : s` (tsdav.esm.js lines 105-106,
118-119): strip one trailing slash. -/
def stripTrailingSlash (s : String) : String :=
  if s.data.getLast? = some '/' then ⟨s.data.dropLast⟩ else s

/-- Model of `urlContains` (tsdav.esm.js lines 109-121). Note the final test uses
the ORIGINAL `urlA` / `urlB`, not the trimmed-and-stripped ones:
`urlA.includes(strippedUrlB) || urlB.includes(strippedUrlA)`. -/
def urlContains (urlA urlB : String) : Bool :=
  if urlA.isEmpty && urlB.isEmpty then true
  else if urlA.isEmpty || urlB.isEmpty then false
  else
    let trimmedUrlA := jsTrim urlA
    let trimmedUrlB := jsTrim urlB
    let strippedUrlA := stripTrailingSlash trimmedUrlA
    let strippedUrlB := stripTrailingSlash trimmedUrlB
    jsIncludes urlA strippedUrlB || jsIncludes urlB strippedUrlA

/-- Modelled from the claim C5 wording: after trimming surrounding whitespace and
stripping one trailing slash from each argument, either RESULTING string contains
the other (two empty inputs counting as true). Written for comparison with the
source-derived `urlContains`. -/
def urlContainsClaim (urlA urlB : String) : Bool :=
  if urlA.isEmpty && urlB.isEmpty then true
  else
    let strippedUrlA := stripTrailingSlash (jsTrim urlA)
    let strippedUrlB := stripTrailingSlash (jsTrim urlB)
    jsIncludes strippedUrlA strippedUrlB || jsIncludes strippedUrlB strippedUrlA

/-- Amended description of `urlContains`: two empty inputs give true, exactly one
empty input gives false, and otherwise the ORIGINAL `urlA` must contain the
trimmed-and-slash-stripped `urlB` or the ORIGINAL `urlB` must contain the
trimmed-and-slash-stripped `urlA`. -/
def urlContainsAmended (urlA urlB : String) : Bool :=
  if urlA.isEmpty && urlB.isEmpty then true
  else if urlA.isEmpty || urlB.isEmpty then false
  else
    jsIncludes urlA (stripTrailingSlash (jsTrim urlB)) ||
      jsIncludes urlB (stripTrailingSlash (jsTrim urlA))

/-- A DAV object as the sync engine sees it (`DAVObject` in the source): a url,
an optional etag and an optional opaque payload. `etag = none` models a missing
(`undefined`) etag; `data` collapses the `_cdata ?? value` choice of the source
into the resolved string. -/
structure DAVObject where
  url : String
  etag : Option String
  data : Option String
  deriving DecidableEq

/-- Truthiness of an optional JS string: `undefined` and the empty string are
falsy, everything else truthy. -/
def optTruthy : Option String → Bool
  | none => false
  | some s => !s.isEmpty

/-- The `created` diff (tsdav.esm.js lines 475, 506): remote objects whose url
matches no local url via `urlContains`. -/
def createdOf (remoteObjects localObjects : List DAVObject) : List DAVObject :=
  remoteObjects.filter fun o => localObjects.all fun lo => !urlContains lo.url o.url

/-- One step of the `updated` reduce (tsdav.esm.js lines 478-484, 509-515): for a
local object, find the first remote with a matching url; if it has a truthy etag
differing from the local one, it is emitted. -/
def updatedPick (remoteObjects : List DAVObject) (curr : DAVObject) : Option DAVObject :=
  match remoteObjects.find? (fun ro => urlContains ro.url curr.url) with
  | some found =>
      if optTruthy found.etag && found.etag != curr.etag then some found else none
  | none => none

/-- The `updated` diff: the reduce over local objects, appending each pick. -/
def updatedOf (remoteObjects localObjects : List DAVObject) : List DAVObject :=
  localObjects.foldl
    (fun prev curr =>
      match updatedPick remoteObjects curr with
      | some found => prev ++ [found]
      | none => prev)
    []

/-- The basic-strategy `deleted` diff (tsdav.esm.js line 518): local objects with
no url-matching remote. -/
def deletedBasicOf (remoteObjects localObjects : List DAVObject) : List DAVObject :=
  localObjects.filter fun cal => remoteObjects.all fun ro => !urlContains ro.url cal.url

/-- The webdav-strategy `deleted` diff (tsdav.esm.js lines 486-489): one object
per 404 href, with an empty-string etag and no data. -/
def deletedWebdavOf (deletedObjectUrls : List String) : List DAVObject :=
  deletedObjectUrls.map fun o => ⟨o, some "", none⟩

/-- The `unchanged` diff (tsdav.esm.js lines 491, 520): local objects matched by
a remote with a strictly equal etag. -/
def unchangedOf (remoteObjects localObjects : List DAVObject) : List DAVObject :=
  localObjects.filter fun lo =>
    remoteObjects.any fun ro => urlContains lo.url ro.url && ro.etag == lo.etag

/-- A decoded XML text value. The decoder's `textFn` coerces every text node
through `nativeType` (tsdav.esm.js lines 78-91), so a decoded value can be a
string, a number, or a boolean; `obj` stands for any (truthy) object value such
as the empty compact element. -/
inductive JSValue where
  | str (s : String)
  | num (n : Int)
  | bool (b : Bool)
  | obj
  deriving DecidableEq

/-- JavaScript truthiness of a `JSValue`. -/
def jsTruthy : JSValue → Bool
  | .str s => !s.isEmpty
  | .num n => n != 0
  | .bool b => b
  | .obj => true

/-- JavaScript truthiness of a possibly-`undefined` value. -/
def jsOptTruthy : Option JSValue → Bool
  | none => false
  | some v => jsTruthy v

/-- Model of JavaScript `v.toString()` for the values we track. -/
def jsToString : JSValue → String
  | .str s => s
  | .num n => toString n
  | .bool b => if b then "true" else "false"
  | .obj => "[object Object]"

/-- Model of JavaScript `String(v)` including the `undefined` case (used when a
possibly-missing value is coerced by `RegExp.exec`). -/
def jsToStringU : Option JSValue → String
  | none => "undefined"
  | some v => jsToString v

/-- Lower-case an ASCII letter. -/
def asciiLowerChar (c : Char) : Char :=
  if 'A' ≤ c && c ≤ 'Z' then Char.ofNat (c.toNat + 32) else c

/-- Model of JavaScript `toLowerCase` for ASCII strings. -/
def asciiLower (s : String) : String := ⟨s.data.map asciiLowerChar⟩

/-- Decimal digits to a natural number. -/
def digitsToNat (l : List Char) : Nat :=
  l.foldl (fun acc c => acc * 10 + (c.toNat - '0'.toNat)) 0

/-- Model of the JavaScript `Number(value)` coercion on the fragment the library
meets: surrounding whitespace is ignored, the empty (or all-whitespace) string
is 0, an optional sign followed by decimal digits is an integer, and anything
else is NaN (`none`). Fractional, hexadecimal and exponent forms are outside
the fragment this development exercises and are not modelled. -/
def jsNumber (value : String) : Option Int :=
  let t := jsTrimList value.data
  if t.isEmpty then some 0
  else
    match t with
    | '-' :: rest =>
        if !rest.isEmpty && rest.all Char.isDigit then some (-(digitsToNat rest : Int))
        else none
    | '+' :: rest =>
        if !rest.isEmpty && rest.all Char.isDigit then some ((digitsToNat rest : Int))
        else none
    | rest =>
        if rest.all Char.isDigit then some ((digitsToNat rest : Int))
        else none

/-- Model of `nativeType` (tsdav.esm.js lines 78-91): number-parseable text
becomes a number, `true`/`false` (case-insensitively) become booleans, anything
else stays a string. -/
def nativeType (value : String) : JSValue :=
  match jsNumber value with
  | some n => .num n
  | none =>
      let bValue := asciiLower value
      if bValue = "true" then .bool true
      else if bValue = "false" then .bool false
      else .str value

/-- A PROPFIND response as `isCollectionDirty` sees it: an href and the decoded
`cs:getctag` property (which, per `nativeType`, may have been coerced). -/
structure CtagResponse where
  href : Option String
  getctag : Option JSValue
  deriving DecidableEq

/-- The result record of `isCollectionDirty`. -/
structure DirtyResult where
  isDirty : Bool
  newCtag : Option String
  deriving DecidableEq

/-- JavaScript strict equality `collection.ctag === res.props?.getctag` where the
left side is a string or `undefined` and the right side is a decoded value:
two `undefined`s are equal, a string equals only the same string, and a string
never equals a number or boolean. -/
def strictEqCtag : Option String → Option JSValue → Bool
  | none, none => true
  | some s, some (.str t) => s == t
  | _, _ => false

/-- Model of `isCollectionDirty` (tsdav.esm.js lines 371-390, collection.ts lines
89-113). The PROPFIND result is an input; the function keeps the first response
whose href url-matches the collection url, throws (`.error`) when there is
none, and otherwise reports `ctag !== getctag` and the stringified new ctag. -/
def isCollectionDirty (collectionUrl : String) (collectionCtag : Option String)
    (responses : List CtagResponse) : Except String DirtyResult :=
  match (responses.filter fun r => urlContains collectionUrl (r.href.getD "")).head? with
  | none => .error "Collection does not exist on server"
  | some res =>
      .ok ⟨!strictEqCtag collectionCtag res.getctag, res.getctag.map jsToString⟩

/-- The account fields `smartCollectionSync` requires. -/
structure DAVAccount where
  accountType : String
  homeUrl : String
  deriving DecidableEq

/-- The collection value consumed by `smartCollectionSync`. `objects = none`
models an absent (`undefined`) snapshot; `reports` absent is the empty list. -/
structure DAVCollection where
  url : String
  ctag : Option String
  syncToken : Option String
  objects : Option (List DAVObject)
  reports : List String
  deriving DecidableEq

/-- One response element of the webdav `sync-collection` REPORT as the sync
engine reads it: an href and a status. -/
structure SyncResponse where
  href : Option String
  status : Int
  deriving DecidableEq

/-- One response of the `objectMultiGet` hook, reduced to the fields the sync
engine reads; `data` resolves the `_cdata ?? value` choice of the source. -/
structure MultiGetResponse where
  href : Option String
  getetag : Option String
  data : Option String
  deriving DecidableEq

/-- The remote interactions of one `smartCollectionSync` run, supplied as data:
the `sync-collection` result and its `multistatus.syncToken`, the output of the
caller-supplied `objectMultiGet` hook, the PROPFIND responses read by
`isCollectionDirty`, and the output of the caller-supplied `fetchObjects` hook. -/
structure SyncEnv where
  syncResult : List SyncResponse
  multistatusSyncToken : Option String
  multiGetResult : List MultiGetResponse
  ctagResponses : List CtagResponse
  fetchObjectsResult : List DAVObject

/-- Sync strategy selector. -/
inductive SyncMethod where
  | webdav
  | basic
  deriving DecidableEq

/-- The `objects` field of a sync result: the input collection's possibly-absent
snapshot, a plain concatenated list, or a detailed diff record. -/
inductive ObjectsOut where
  | missing
  | plain (objs : List DAVObject)
  | detailed (created updated deleted : List DAVObject)
  deriving DecidableEq

/-- A collection value as returned by `smartCollectionSync`. -/
structure SyncOutcome where
  url : String
  ctag : Option String
  syncToken : Option String
  reports : List String
  objects : ObjectsOut
  deriving DecidableEq

/-- The input collection viewed as a sync outcome (the `return collection`
path). -/
def outcomeOfCollection (c : DAVCollection) : SyncOutcome :=
  ⟨c.url, c.ctag, c.syncToken, c.reports,
    match c.objects with
    | some objs => .plain objs
    | none => .missing⟩

/-- Model of JavaScript `s.slice(-4)`: the last four characters (or the whole
string when shorter). -/
def jsSliceNeg4 (s : String) : String := ⟨s.data.drop (s.data.length - 4)⟩

/-- Model of `smartCollectionSync` (tsdav.esm.js lines 418-533, collection.ts
lines 149-318). Every network or hook interaction is drawn from `env`. -/
def smartCollectionSync (collection : DAVCollection) (method : Option SyncMethod)
    (account : Option DAVAccount) (detailedResult : Bool) (env : SyncEnv) :
    Except String SyncOutcome :=
  match account with
  | none => .error "no account for smartCollectionSync"
  | some acct =>
      if acct.accountType.isEmpty || acct.homeUrl.isEmpty then
        .error "account must have accountType,homeUrl before smartCollectionSync"
      else
        match method.getD
            (if collection.reports.contains "syncCollection" then .webdav else .basic) with
        | .webdav =>
            let result := env.syncResult
            let extName := if acct.accountType == "caldav" then ".ics" else ".vcf"
            let objectResponses := result.filter fun r =>
              match r.href with
              | some h => jsSliceNeg4 h == extName
              | none => false
            let changedObjectUrls :=
              (objectResponses.filter fun o => o.status != 404).map fun r => r.href.getD ""
            let deletedObjectUrls :=
              (objectResponses.filter fun o => o.status == 404).map fun r => r.href.getD ""
            let multiGetObjectResponse :=
              if changedObjectUrls.isEmpty then [] else env.multiGetResult
            let remoteObjects := multiGetObjectResponse.map fun res =>
              (⟨res.href.getD "", res.getetag, res.data⟩ : DAVObject)
            let localObjects := collection.objects.getD []
            .ok
              { url := collection.url
                ctag := collection.ctag
                syncToken :=
                  match env.multistatusSyncToken with
                  | some t => some t
                  | none => collection.syncToken
                reports := collection.reports
                objects :=
                  if detailedResult then
                    .detailed (createdOf remoteObjects localObjects)
                      (updatedOf remoteObjects localObjects)
                      (deletedWebdavOf deletedObjectUrls)
                  else
                    .plain (unchangedOf remoteObjects localObjects ++
                      createdOf remoteObjects localObjects ++
                      updatedOf remoteObjects localObjects) }
        | .basic =>
            match isCollectionDirty collection.url collection.ctag env.ctagResponses with
            | .error e => .error e
            | .ok dirty =>
                let localObjects := collection.objects.getD []
                let remoteObjects := env.fetchObjectsResult
                if dirty.isDirty then
                  .ok
                    { url := collection.url
                      ctag := dirty.newCtag
                      syncToken := collection.syncToken
                      reports := collection.reports
                      objects :=
                        if detailedResult then
                          .detailed (createdOf remoteObjects localObjects)
                            (updatedOf remoteObjects localObjects)
                            (deletedBasicOf remoteObjects localObjects)
                        else
                          .plain (unchangedOf remoteObjects localObjects ++
                            createdOf remoteObjects localObjects ++
                            updatedOf remoteObjects localObjects) }
                else
                  .ok
                    (if detailedResult then
                      { outcomeOfCollection collection with objects := .detailed [] [] [] }
                    else outcomeOfCollection collection)

/-- A calendar as `syncCalendars` compares them: url, ctag, syncToken. -/
structure DAVCalendar where
  url : String
  ctag : Option String
  syncToken : Option String
  deriving DecidableEq

/-- The change test of `syncCalendars` (tsdav.esm.js lines 959-961):
`(rc.syncToken && rc.syncToken !== cal.syncToken) || (rc.ctag && rc.ctag !== cal.ctag)`. -/
def calendarChangedB (rc cal : DAVCalendar) : Bool :=
  (optTruthy rc.syncToken && rc.syncToken != cal.syncToken) ||
    (optTruthy rc.ctag && rc.ctag != cal.ctag)

/-- The `created` list of `syncCalendars` (tsdav.esm.js line 954). -/
def createdCalendarsOf (remoteCalendars localCalendars : List DAVCalendar) :
    List DAVCalendar :=
  remoteCalendars.filter fun rc => localCalendars.all fun lc => !urlContains lc.url rc.url

/-- One step of the `updated` reduce of `syncCalendars` (tsdav.esm.js lines
957-965). -/
def updatedCalendarsPick (remoteCalendars : List DAVCalendar) (curr : DAVCalendar) :
    Option DAVCalendar :=
  match remoteCalendars.find? (fun rc => urlContains rc.url curr.url) with
  | some found => if calendarChangedB found curr then some found else none
  | none => none

/-- The `updated` list of `syncCalendars`. -/
def updatedCalendarsOf (localCalendars remoteCalendars : List DAVCalendar) :
    List DAVCalendar :=
  localCalendars.foldl
    (fun prev curr =>
      match updatedCalendarsPick remoteCalendars curr with
      | some found => prev ++ [found]
      | none => prev)
    []

/-- The `deleted` list of `syncCalendars` (tsdav.esm.js line 977): locals with no
url-matching remote. -/
def deletedCalendarsOf (localCalendars remoteCalendars : List DAVCalendar) :
    List DAVCalendar :=
  localCalendars.filter fun cal => remoteCalendars.all fun rc => !urlContains rc.url cal.url

/-- The `unchanged` list of `syncCalendars`, transcribed verbatim from
tsdav.esm.js lines 979-980: the filter keeps the locals matched by a remote
that satisfies the CHANGE condition — the condition is not negated in the
source, despite the variable's name. -/
def unchangedCalendarsOf (localCalendars remoteCalendars : List DAVCalendar) :
    List DAVCalendar :=
  localCalendars.filter fun cal =>
    remoteCalendars.any fun rc => urlContains rc.url cal.url && calendarChangedB rc cal

/-- The result of `syncCalendars`: a detailed diff record or a flat list. -/
inductive CalendarsSyncResult where
  | plain (cals : List DAVCalendar)
  | detailed (created updated deleted : List DAVCalendar)
  deriving DecidableEq

/-- Model of `syncCalendars` (tsdav.esm.js lines 945-989). `remoteCalendars` is
the output of the `fetchCalendars` round trip; `syncOne` stands for the
per-calendar `smartCollectionSync(method := webdav)` call that produces each
element of `updatedWithObjects`. -/
def syncCalendars (localCalendars remoteCalendars : List DAVCalendar)
    (syncOne : DAVCalendar → DAVCalendar) (detailedResult : Bool) : CalendarsSyncResult :=
  let created := createdCalendarsOf remoteCalendars localCalendars
  let updated := updatedCalendarsOf localCalendars remoteCalendars
  let updatedWithObjects := updated.map syncOne
  let deleted := deletedCalendarsOf localCalendars remoteCalendars
  let unchanged := unchangedCalendarsOf localCalendars remoteCalendars
  if detailedResult then .detailed created updated deleted
  else .plain (unchanged ++ created ++ updatedWithObjects)

/-- The transport-level response of a `fetch` call: the fields the library
reads. -/
structure TransportResponse where
  url : String
  status : Int
  statusText : String
  contentType : Option String
  bodyText : String
  deriving DecidableEq

/-- WHATWG fetch `Response.ok`: status in the 2xx range. -/
def fetchOk (r : TransportResponse) : Bool :=
  decide (200 ≤ r.status) && decide (r.status < 300)

/-- The content-type guard of `davRequest` (tsdav.esm.js line 180): the header
exists and contains the substring `xml`. -/
def contentTypeHasXml : Option String → Bool
  | none => false
  | some ct => jsIncludes ct "xml"

/-- A decoded per-resource `response` element of a multistatus body, reduced to
the fields the response mapping reads; `propstat` merging is not needed by any
claim and is omitted. -/
structure MultistatusResponseBody where
  href : Option JSValue
  status : Option JSValue
  error : Option JSValue
  deriving DecidableEq

/-- Model of the status-line regex of tsdav.esm.js line 232 on its intended
input shape (one token, one whitespace, digits, one whitespace, non-empty
text); the full backtracking behaviour of the regex engine on degenerate
status lines is not modelled. -/
def parseStatusLine (s : String) : Option (Int × String) :=
  let l := s.data
  let tok := l.takeWhile fun c => !c.isWhitespace
  if tok.isEmpty then none
  else
    match l.drop tok.length with
    | c :: rest =>
        if c.isWhitespace then
          let digits := rest.takeWhile Char.isDigit
          if digits.isEmpty then none
          else
            match rest.drop digits.length with
            | c2 :: rest2 =>
                if c2.isWhitespace && !rest2.isEmpty then
                  some ((digitsToNat digits : Int), ⟨rest2⟩)
                else none
            | [] => none
        else none
    | [] => none

/-- The `raw` field of a response envelope: absent, the body text (degenerate
branch), or the decoded tree (parsed branch, collapsed to a marker). -/
inductive RawOut where
  | noRaw
  | text (s : String)
  | tree
  deriving DecidableEq

/-- The per-resource response envelope `davRequest` returns. -/
structure DAVResponseOut where
  href : Option JSValue
  status : Int
  statusText : String
  ok : Bool
  error : Option JSValue
  raw : RawOut
  deriving DecidableEq

/-- The response mapping of `davRequest` (tsdav.esm.js lines 230-255): a null
entry yields the transport status triple; otherwise the status line is split,
falling back to the transport values, and `ok` is the negation of the
truthiness of the decoded `error` value. -/
def mapResponseBody (davResponse : TransportResponse)
    (responseBody : Option MultistatusResponseBody) : DAVResponseOut :=
  match responseBody with
  | none =>
      ⟨none, davResponse.status, davResponse.statusText, fetchOk davResponse, none, .noRaw⟩
  | some body =>
      let matchArr := parseStatusLine (jsToStringU body.status)
      { href := body.href
        status :=
          match matchArr with
          | some m => m.1
          | none => davResponse.status
        statusText :=
          match matchArr with
          | some m => m.2
          | none => davResponse.statusText
        ok := !jsOptTruthy body.error
        error := body.error
        raw := .tree }

/-- Model of the response processing of `davRequest` (tsdav.esm.js lines
139-256). The transport response and the decoded, normalized
`multistatus.response` list are inputs; the degenerate guard of lines 179-191
returns the single synthetic envelope, and otherwise each response element is
mapped. The function is total: no branch throws. -/
def davRequest (davResponse : TransportResponse) (parseOutgoing : Bool)
    (decoded : List (Option MultistatusResponseBody)) : List DAVResponseOut :=
  if !fetchOk davResponse || !contentTypeHasXml davResponse.contentType || !parseOutgoing then
    [⟨some (.str davResponse.url), davResponse.status, davResponse.statusText,
      fetchOk davResponse, none, .text davResponse.bodyText⟩]
  else
    decoded.map (mapResponseBody davResponse)

/-- The constant `__PROXY_URL__` of tsdav.esm.js line 138. -/
def PROXY_URL : String := "http://localhost:8001/"

/-- The URL targeted by the `fetch` call inside `davRequest` (tsdav.esm.js line
169): the constant `__PROXY_URL__` prefixed to `url`. The `proxyUrl` parameter
destructured on line 141 is never used by the function. -/
def davRequestFetchUrl (proxyUrl url : String) : String := PROXY_URL ++ url

/-- A PROPFIND response as `fetchCalendars` reads it: the keys of the decoded
`resourcetype` and the component names of `supported-calendar-component-set`
(`none` when the property or its `comp` child is missing, in which case the
source's unguarded property access throws). -/
structure CalendarPropfindResponse where
  resourcetype : List String
  components : Option (List String)
  deriving DecidableEq

/-- The known iCalendar component set (tsdav.esm.js lines 66-74). -/
def ICALObjects : List String :=
  ["VEVENT", "VTODO", "VJOURNAL", "VFREEBUSY", "VTIMEZONE", "VALARM"]

/-- The first `fetchCalendars` filter (tsdav.esm.js line 792): the resourcetype
keys include `calendar`. -/
def isCalendarResourcetype (r : CalendarPropfindResponse) : Bool :=
  r.resourcetype.contains "calendar"

/-- The second `fetchCalendars` filter (tsdav.esm.js lines 793-800): keep the
responses whose component names meet the known set; accessing a missing
component set throws. -/
def filterICalFormat :
    List CalendarPropfindResponse → Except String (List CalendarPropfindResponse)
  | [] => .ok []
  | r :: rest =>
      match r.components with
      | none => .error "TypeError: cannot read properties of undefined"
      | some comps =>
          match filterICalFormat rest with
          | .error e => .error e
          | .ok tail =>
              .ok (if comps.any (fun c => ICALObjects.contains c) then r :: tail else tail)

/-- The composed `fetchCalendars` response selection: the resourcetype filter
followed by the component-set filter. -/
def fetchCalendarsSelect (responses : List CalendarPropfindResponse) :
    Except String (List CalendarPropfindResponse) :=
  filterICalFormat (responses.filter isCalendarResourcetype)

/-- The selection predicate in the words of claim C9: resourcetype contains
`calendar` and the component set intersects the known component set. -/
def keepsCalendarClaim (r : CalendarPropfindResponse) : Bool :=
  isCalendarResourcetype r &&
    match r.components with
    | some comps => comps.any fun c => ICALObjects.contains c
    | none => false

/-- Split a character list at the first occurrence of `://`; the library's URL
values all use this authority form. -/
def breakOnScheme : List Char → Option (List Char × List Char)
  | ':' :: '/' :: '/' :: tail => some ([], tail)
  | c :: rest => (breakOnScheme rest).map fun p => (c :: p.1, p.2)
  | [] => none

/-- A parsed URL: the components of the WHATWG `URL` class that
`serviceDiscovery` reads (scheme, host, port, path). Query, fragment and
userinfo do not occur in the inputs the library builds and are not modelled. -/
structure URLRec where
  scheme : String
  host : String
  port : String
  path : String
  deriving DecidableEq

/-- The default port of a scheme; the WHATWG parser normalizes a default port
to the empty `port`. -/
def defaultPort (scheme : String) : String :=
  if scheme = "http" then "80" else if scheme = "https" then "443" else ""

/-- Model of `new URL(s)` for absolute `scheme://host[:port][/path]` URLs:
scheme and host are lower-cased, a default port becomes empty, and an empty
path serializes as `/`. Returns `none` (the constructor throws) otherwise. -/
def parseURL (s : String) : Option URLRec :=
  match breakOnScheme s.data with
  | none => none
  | some (schemeCs, rest) =>
      if schemeCs.isEmpty then none
      else
        let scheme := asciiLower ⟨schemeCs⟩
        let hostportCs := rest.takeWhile fun c => c != '/'
        let pathCs := rest.drop hostportCs.length
        if hostportCs.isEmpty then none
        else
          let hostCs := hostportCs.takeWhile fun c => c != ':'
          let port0 : String :=
            if hostCs.length = hostportCs.length then ""
            else ⟨hostportCs.drop (hostCs.length + 1)⟩
          let port := if port0 = defaultPort scheme then "" else port0
          some ⟨scheme, asciiLower ⟨hostCs⟩, port,
            if pathCs.isEmpty then "/" else ⟨pathCs⟩⟩

/-- Serialization (`URL.href`) of a parsed URL. -/
def urlHref (u : URLRec) : String :=
  u.scheme ++ "://" ++ u.host ++ (if u.port.isEmpty then "" else ":" ++ u.port) ++ u.path

/-- Keep a path up to and including its last slash (the directory part used by
relative resolution). -/
def dropAfterLastSlash (l : List Char) : List Char :=
  (l.reverse.dropWhile fun c => c != '/').reverse

/-- Model of `new URL(loc, base)`: an absolute location is parsed on its own, a
path-absolute one replaces the base path, and a relative one resolves against
the directory of the base path. -/
def resolveURL (loc : String) (base : URLRec) : Option URLRec :=
  if (breakOnScheme loc.data).isSome then parseURL loc
  else if loc.startsWith "/" then some { base with path := loc }
  else some { base with path := ⟨dropAfterLastSlash base.path.data⟩ ++ loc }

/-- The well-known probe's transport outcome: `none` when `fetch` threw, else
the status and the `Location` header. -/
structure WellKnownResponse where
  status : Int
  location : Option String
  deriving DecidableEq

/-- Model of `serviceDiscovery` (tsdav.esm.js lines 1039-1070). `new
URL(account.serverUrl)` runs OUTSIDE the try block, so an unparseable
`serverUrl` throws (`.error`); everything after it is inside the try, whose
catch swallows the failure. On a 3xx with a usable `Location` the resolved
service URL is returned, with the original port preserved when the redirect
kept the hostname but dropped the port, and the original scheme forced;
every other outcome returns `endpoint.href`. -/
def serviceDiscovery (serverUrl accountType : String)
    (fetchOutcome : Option WellKnownResponse) : Except String String :=
  match parseURL serverUrl with
  | none => .error "TypeError: Invalid URL"
  | some endpoint =>
      let uri : URLRec := { endpoint with path := "/.well-known/" ++ accountType }
      let redirected : Option String :=
        match fetchOutcome with
        | none => none
        | some response =>
            if 300 ≤ response.status ∧ response.status < 400 then
              match response.location with
              | some location =>
                  if !location.isEmpty then
                    match resolveURL location endpoint with
                    | some serviceURL0 =>
                        let serviceURL1 :=
                          if serviceURL0.host == uri.host && !uri.port.isEmpty &&
                              serviceURL0.port.isEmpty then
                            { serviceURL0 with port := uri.port }
                          else serviceURL0
                        some (urlHref { serviceURL1 with scheme := endpoint.scheme })
                    | none => none
                  else none
              | none => none
            else none
      match redirected with
      | some r => .ok r
      | none => .ok (urlHref endpoint)

/-- Concrete collection for the claim C4 witness. -/
def collC4 : DAVCollection :=
  ⟨"https://ex.com/cal/", some "X", some "tok", some [⟨"/c/1.ics", some "a", none⟩], []⟩

/-- Concrete account for the claim C4 witness. -/
def acctC4 : DAVAccount := ⟨"caldav", "https://ex.com/home/"⟩

/-- Concrete environment for the claim C4 witness: the server reports the same
getctag `X` the collection already stores. -/
def envC4 : SyncEnv :=
  ⟨[], none, [], [⟨some "https://ex.com/cal/", some (.str "X")⟩], []⟩

/-- Concrete calendar for the claim C2 failing input: locally known, and
reported by the server with the identical url, ctag and syncToken. -/
def calC2 : DAVCalendar := ⟨"https://ex.com/cal/a/", some "ctag1", some "token1"⟩

/-- Concrete transport response (2xx, XML) for the claim C7 theorems. -/
def respXmlC7 : TransportResponse :=
  ⟨"https://ex.com/cal/", 207, "Multi-Status", some "application/xml; charset=utf-8", ""⟩

/-- Concrete response body whose `error` element decoded to the boolean
`false` (for example the element text was the word `false`). -/
def bodyErrFalse : MultistatusResponseBody :=
  ⟨some (.str "/c/1.ics"), none, some (.bool false)⟩

/-- Concrete response body carrying a truthy decoded `error` element. -/
def bodyErrTrue : MultistatusResponseBody := ⟨some (.str "/c/2.ics"), none, some .obj⟩

/-- Concrete non-2xx transport response for the claim C8 witness. -/
def respHtml404 : TransportResponse :=
  ⟨"https://ex.com/missing", 404, "Not Found", some "text/html", "<html>gone</html>"⟩

/-- Concrete home-collection response (not calendar-typed) for the claim C9
witness. -/
def respHome : CalendarPropfindResponse := ⟨["collection"], none⟩

/-- Concrete calendar response supporting only VJOURNAL (kept). -/
def respVJournal : CalendarPropfindResponse :=
  ⟨["collection", "calendar"], some ["VJOURNAL"]⟩

/-- Concrete calendar response supporting only VMESSAGE (dropped). -/
def respVMessage : CalendarPropfindResponse :=
  ⟨["collection", "calendar"], some ["VMESSAGE"]⟩

/-- Concrete remote objects used by the witness of the diff invariants. -/
def remotesW : List DAVObject :=
  [⟨"/c/1.ics", some "b", none⟩, ⟨"/c/2.ics", some "c", none⟩]

/-- Concrete local objects used by the witness of the diff invariants. -/
def localsW : List DAVObject := [⟨"/c/1.ics", some "a", none⟩]

/-- Concrete deleted hrefs used by the witness of the diff invariants. -/
def delUrlsW : List String := ["/c/3.ics"]

theorem jsTrimList_sub (l : List Char) : jsTrimList l <:+: l := by
  obtain ⟨q, hq⟩ : l.dropWhile Char.isWhitespace <:+ l := List.dropWhile_suffix _
  obtain ⟨p, hp⟩ :
      (l.dropWhile Char.isWhitespace).reverse.dropWhile Char.isWhitespace <:+
        (l.dropWhile Char.isWhitespace).reverse := List.dropWhile_suffix _
  have hpre : jsTrimList l ++ p.reverse = l.dropWhile Char.isWhitespace := by
    unfold jsTrimList
    have h := congrArg List.reverse hp
    simpa using h
  refine ⟨q, p.reverse, ?_⟩
  rw [List.append_assoc, hpre, hq]

theorem stripTrailingSlash_prefix (s : String) :
    (stripTrailingSlash s).data <+: s.data := by
  unfold stripTrailingSlash
  by_cases h : s.data.getLast? = some '/'
  · simp only [h, if_pos rfl]
    exact List.dropLast_prefix _
  · simp only [if_neg h]
    exact List.prefix_refl _

theorem stripTrailingSlash_jsTrim_sub (s : String) :
    (stripTrailingSlash (jsTrim s)).data <:+: s.data := by
  have h1 : (stripTrailingSlash (jsTrim s)).data <+: (jsTrim s).data :=
    stripTrailingSlash_prefix _
  have h2 : (jsTrim s).data <:+: s.data := jsTrimList_sub _
  obtain ⟨t, ht⟩ := h1
  obtain ⟨u, v, huv⟩ := h2
  exact ⟨u, t ++ v, by rw [← huv, ← ht]; simp⟩

theorem jsIncludes_self_trim (s : String) :
    jsIncludes s (stripTrailingSlash (jsTrim s)) = true := by
  unfold jsIncludes
  exact decide_eq_true (stripTrailingSlash_jsTrim_sub s)

theorem urlContains_refl (a : String) : urlContains a a = true := by
  unfold urlContains
  by_cases h : a.isEmpty
  · simp [h]
  · simp [h, jsIncludes_self_trim]

theorem urlContains_symm (a b : String) : urlContains a b = urlContains b a := by
  unfold urlContains
  by_cases ha : a.isEmpty <;> by_cases hb : b.isEmpty <;>
    simp [ha, hb, Bool.or_comm]

/-- Claim C5 (counterexample): `urlContains` is NOT the relation described by the
claim. First, the containment test runs against the original, untrimmed and
unstripped arguments, so `urlContains "ba/" "a//" = true` (the stripped form
of the second argument, namely the two characters `a` and `/`, occurs in the
raw first argument thanks to its trailing slash) while neither of the stripped
strings contains the other. Second, when exactly one argument is empty the
code returns false before any trimming, while the claimed recipe would return
true because the empty string is a substring of everything. -/
theorem urlContains_claim_counterexample :
    (urlContains "ba/" "a//" = true ∧ urlContainsClaim "ba/" "a//" = false) ∧
      (urlContains "" "x" = false ∧ urlContainsClaim "" "x" = true) := by
  decide

/-- Claim C5 (amended): `urlContains a b` is true iff both inputs are empty, or
both are non-empty and the ORIGINAL `a` contains the trimmed-and-slash-stripped
`b`, or the ORIGINAL `b` contains the trimmed-and-slash-stripped `a`; moreover
the relation is symmetric and reflexive, as the specification asserts. -/
theorem urlContains_characterization (a b : String) :
    urlContains a b = urlContainsAmended a b ∧
      urlContains a b = urlContains b a ∧ urlContains a a = true := by
  refine ⟨?_, urlContains_symm a b, urlContains_refl a⟩
  unfold urlContains urlContainsAmended
  by_cases ha : a.isEmpty <;> by_cases hb : b.isEmpty <;> simp [ha, hb]

theorem updatedOf_eq_filterMap (remoteObjects localObjects : List DAVObject) :
    updatedOf remoteObjects localObjects =
      localObjects.filterMap (updatedPick remoteObjects) := by
  have key : ∀ (l acc : List DAVObject),
      l.foldl
          (fun prev curr =>
            match updatedPick remoteObjects curr with
            | some found => prev ++ [found]
            | none => prev)
          acc
        = acc ++ l.filterMap (updatedPick remoteObjects) := by
    intro l
    induction l with
    | nil => intro acc; simp
    | cons c t ih =>
        intro acc
        cases h : updatedPick remoteObjects c with
        | none => simp [h, List.filterMap_cons, ih]
        | some f => simp [h, List.filterMap_cons, ih]
  simpa using key localObjects []

theorem mem_updatedOf {remoteObjects localObjects : List DAVObject} {x : DAVObject} :
    x ∈ updatedOf remoteObjects localObjects ↔
      ∃ curr ∈ localObjects, updatedPick remoteObjects curr = some x := by
  rw [updatedOf_eq_filterMap]
  simp [List.mem_filterMap]

theorem updatedPick_spec {remoteObjects : List DAVObject} {curr x : DAVObject}
    (h : updatedPick remoteObjects curr = some x) :
    x ∈ remoteObjects ∧ urlContains x.url curr.url = true ∧ optTruthy x.etag = true := by
  unfold updatedPick at h
  cases hf : remoteObjects.find? (fun ro => urlContains ro.url curr.url) with
  | none => rw [hf] at h; cases h
  | some found =>
      rw [hf] at h
      by_cases hg : (optTruthy found.etag && found.etag != curr.etag) = true
      · simp only [hg, if_true] at h
        injection h with h
        subst h
        have hg2 : optTruthy found.etag = true ∧ (found.etag != curr.etag) = true := by
          simpa using hg
        have hmatch : urlContains found.url curr.url = true := by
          simpa using List.find?_some hf
        exact ⟨List.mem_of_find?_eq_some hf, hmatch, hg2.1⟩
      · simp only [hg] at h
        simp at h

theorem mem_createdOf {remoteObjects localObjects : List DAVObject} {x : DAVObject} :
    x ∈ createdOf remoteObjects localObjects ↔
      x ∈ remoteObjects ∧ ∀ lo ∈ localObjects, urlContains lo.url x.url = false := by
  unfold createdOf
  simp [List.mem_filter, List.all_eq_true]

theorem mem_deletedBasicOf {remoteObjects localObjects : List DAVObject} {x : DAVObject} :
    x ∈ deletedBasicOf remoteObjects localObjects ↔
      x ∈ localObjects ∧ ∀ ro ∈ remoteObjects, urlContains ro.url x.url = false := by
  unfold deletedBasicOf
  simp [List.mem_filter, List.all_eq_true]

theorem mem_deletedWebdavOf_etag {deletedObjectUrls : List String} {x : DAVObject}
    (h : x ∈ deletedWebdavOf deletedObjectUrls) : x.etag = some "" := by
  unfold deletedWebdavOf at h
  obtain ⟨u, _, rfl⟩ := List.mem_map.mp h
  rfl

theorem mem_unchangedOf {remoteObjects localObjects : List DAVObject} {x : DAVObject} :
    x ∈ unchangedOf remoteObjects localObjects ↔
      x ∈ localObjects ∧
        ∃ ro ∈ remoteObjects, urlContains x.url ro.url = true ∧ ro.etag = x.etag := by
  unfold unchangedOf
  simp [List.mem_filter, List.any_eq_true, and_assoc]

/-- Claim C3 (amended): for the diff sets computed by `smartCollectionSync` in
either strategy, `created` and `updated` are disjoint; the basic-strategy
`deleted` is disjoint from both; the webdav-strategy `deleted` is disjoint from
`updated` unconditionally and from `created` provided no remote object carries
an empty-string etag; and every object of `unchanged ++ created ++ updated`
url-matches some remote object. The converse coverage of the remote set by
that union — and with it the claimed set equality — does not hold (see the
counterexample). -/
theorem smartCollectionSync_diff_invariants (remoteObjects localObjects : List DAVObject)
    (deletedObjectUrls : List String) :
    (∀ x ∈ createdOf remoteObjects localObjects,
        x ∉ updatedOf remoteObjects localObjects) ∧
      (∀ x ∈ deletedBasicOf remoteObjects localObjects,
        x ∉ createdOf remoteObjects localObjects ∧
          x ∉ updatedOf remoteObjects localObjects) ∧
      (∀ x ∈ deletedWebdavOf deletedObjectUrls,
        x ∉ updatedOf remoteObjects localObjects) ∧
      ((∀ r ∈ remoteObjects, r.etag ≠ some "") →
        ∀ x ∈ deletedWebdavOf deletedObjectUrls,
          x ∉ createdOf remoteObjects localObjects) ∧
      (∀ x ∈ unchangedOf remoteObjects localObjects ++
          createdOf remoteObjects localObjects ++ updatedOf remoteObjects localObjects,
        ∃ r ∈ remoteObjects, urlContains x.url r.url = true) := by
  refine ⟨?_, ?_, ?_, ?_, ?_⟩
  · intro x hc hu
    obtain ⟨_, hnone⟩ := mem_createdOf.mp hc
    obtain ⟨curr, hcurr, hpick⟩ := mem_updatedOf.mp hu
    obtain ⟨_, hmatch, _⟩ := updatedPick_spec hpick
    have := hnone curr hcurr
    rw [urlContains_symm] at this
    rw [this] at hmatch
    cases hmatch
  · intro x hd
    obtain ⟨hxl, hnone⟩ := mem_deletedBasicOf.mp hd
    constructor
    · intro hc
      obtain ⟨hxr, _⟩ := mem_createdOf.mp hc
      have := hnone x hxr
      rw [urlContains_refl] at this
      cases this
    · intro hu
      obtain ⟨curr, hcurr, hpick⟩ := mem_updatedOf.mp hu
      obtain ⟨hxr, _, _⟩ := updatedPick_spec hpick
      have := hnone x hxr
      rw [urlContains_refl] at this
      cases this
  · intro x hd hu
    obtain ⟨curr, hcurr, hpick⟩ := mem_updatedOf.mp hu
    obtain ⟨_, _, htruthy⟩ := updatedPick_spec hpick
    rw [mem_deletedWebdavOf_etag hd] at htruthy
    exact absurd htruthy (by decide)
  · intro hno x hd hc
    obtain ⟨hxr, _⟩ := mem_createdOf.mp hc
    exact hno x hxr (mem_deletedWebdavOf_etag hd)
  · intro x hx
    rcases List.mem_append.mp hx with hx' | hu
    · rcases List.mem_append.mp hx' with hun | hc
      · obtain ⟨_, ro, hro, hm, _⟩ := mem_unchangedOf.mp hun
        exact ⟨ro, hro, hm⟩
      · obtain ⟨hxr, _⟩ := mem_createdOf.mp hc
        exact ⟨x, hxr, urlContains_refl _⟩
    · obtain ⟨curr, hcurr, hpick⟩ := mem_updatedOf.mp hu
      obtain ⟨hxr, _, _⟩ := updatedPick_spec hpick
      exact ⟨x, hxr, urlContains_refl _⟩

/-- Claim C3 (counterexample): the claimed set equality between
`unchanged ∪ created ∪ updated` and the remote objects up to url-identity
fails: a remote object with no etag that url-matches a local object with a
different etag lands in none of the three sets. Moreover, in the webdav
strategy, `deleted` can intersect `created` when a remote object carries an
empty-string etag. -/
theorem smartCollectionSync_diff_counterexample :
    (¬ ∀ r ∈ [(⟨"/a", none, none⟩ : DAVObject)],
        ∃ x ∈ unchangedOf [⟨"/a", none, none⟩] [⟨"/a", some "x", none⟩] ++
            createdOf [⟨"/a", none, none⟩] [⟨"/a", some "x", none⟩] ++
            updatedOf [⟨"/a", none, none⟩] [⟨"/a", some "x", none⟩],
          urlContains x.url r.url = true) ∧
      ((⟨"/d.ics", some "", none⟩ : DAVObject) ∈ deletedWebdavOf ["/d.ics"] ∧
        (⟨"/d.ics", some "", none⟩ : DAVObject) ∈
          createdOf [⟨"/d.ics", some "", none⟩] []) := by
  decide

/-- Claim C3 (witness): the amended invariants evaluated on a concrete sync
state: one locally known object whose remote etag changed, one freshly created
remote object, one deleted href. -/
theorem smartCollectionSync_diff_invariants_witness :
    (∀ x ∈ createdOf remotesW localsW, x ∉ updatedOf remotesW localsW) ∧
      (∀ x ∈ deletedBasicOf remotesW localsW,
        x ∉ createdOf remotesW localsW ∧ x ∉ updatedOf remotesW localsW) ∧
      (∀ x ∈ deletedWebdavOf delUrlsW, x ∉ updatedOf remotesW localsW) ∧
      ((∀ r ∈ remotesW, r.etag ≠ some "") →
        ∀ x ∈ deletedWebdavOf delUrlsW, x ∉ createdOf remotesW localsW) ∧
      (∀ x ∈ unchangedOf remotesW localsW ++ createdOf remotesW localsW ++
          updatedOf remotesW localsW,
        ∃ r ∈ remotesW, urlContains x.url r.url = true) :=
  smartCollectionSync_diff_invariants remotesW localsW delUrlsW

/-- Claim C4: when the basic strategy is chosen (explicitly, or by default
because the collection's reports lack `syncCollection`) and `isCollectionDirty`
reports `isDirty = false`, `smartCollectionSync` returns the input collection
unchanged — same url, ctag, syncToken and objects — and, with
`detailedResult = true`, the input collection with an empty
created/updated/deleted diff. -/
theorem smartCollectionSync_basic_clean (collection : DAVCollection) (acct : DAVAccount)
    (method : Option SyncMethod) (detailedResult : Bool) (env : SyncEnv)
    (dirty : DirtyResult)
    (hA : acct.accountType.isEmpty = false) (hH : acct.homeUrl.isEmpty = false)
    (hm : method = some .basic ∨
      (method = none ∧ collection.reports.contains "syncCollection" = false))
    (hd : isCollectionDirty collection.url collection.ctag env.ctagResponses = .ok dirty)
    (hclean : dirty.isDirty = false) :
    smartCollectionSync collection method (some acct) detailedResult env =
      .ok
        (if detailedResult then
          { outcomeOfCollection collection with objects := .detailed [] [] [] }
        else outcomeOfCollection collection) := by
  rcases hm with hm | ⟨hm, hrep⟩
  · subst hm
    simp [smartCollectionSync, hA, hH, hd, hclean]
  · subst hm
    have hrep' : "syncCollection" ∉ collection.reports := by simpa using hrep
    simp [smartCollectionSync, hA, hH, hrep', hd, hclean]

/-- Claim C4 (witness): a concrete clean basic sync returns the input
collection. -/
theorem smartCollectionSync_basic_clean_witness :
    smartCollectionSync collC4 (some .basic) (some acctC4) false envC4 =
      .ok (outcomeOfCollection collC4) :=
  smartCollectionSync_basic_clean collC4 acctC4 (some .basic) false envC4
    ⟨false, some "X"⟩ (by decide) (by decide) (Or.inl rfl) (by decide) rfl

/-- Claim C10: because the XML decoder coerces decimal text to a number while
`isCollectionDirty` compares with strict inequality and stringifies the new
ctag, a collection whose stored ctag is the decimal string form of the
server's getctag value is reported dirty even though the textual ctags are
equal, and `newCtag` equals the stored string. -/
theorem isCollectionDirty_coerced_ctag (collectionUrl t s : String) (n : Int)
    (hnum : nativeType t = .num n) (hs : jsToString (.num n) = s) :
    isCollectionDirty collectionUrl (some s) [⟨some collectionUrl, some (nativeType t)⟩] =
      .ok ⟨true, some s⟩ := by
  unfold isCollectionDirty
  have hmatch : urlContains collectionUrl collectionUrl = true :=
    urlContains_refl collectionUrl
  simp [hmatch, hnum, strictEqCtag, hs]

/-- Claim C10 (witness): server text `12345` is decoded to the number 12345;
against the stored string ctag `12345` the collection is dirty and `newCtag`
is the stored string again. -/
theorem isCollectionDirty_coerced_ctag_witness :
    isCollectionDirty "https://ex.com/cal/" (some "12345")
        [⟨some "https://ex.com/cal/", some (nativeType "12345")⟩] =
      .ok ⟨true, some "12345"⟩ :=
  isCollectionDirty_coerced_ctag "https://ex.com/cal/" "12345" "12345" 12345
    (by decide) (by decide)

/-- Claim C2 (code bug): a calendar that exists locally and is reported by the
server with the identical url, ctag and syncToken — an unchanged calendar —
is dropped from the non-detailed `syncCalendars` result: the source's
`unchanged` filter keeps the locals matched by a CHANGED remote (the change
condition is not negated), so the result here is the empty list instead of a
list containing the calendar. -/
theorem syncCalendars_unchanged_dropped :
    syncCalendars [calC2] [calC2] id false = .plain [] := by
  decide

/-- Claim C8: whenever the transport response is non-2xx, has a non-XML (or
missing) content type, or `parseOutgoing = false`, `davRequest` returns the
single synthetic envelope carrying `href = response.url`, the transport's ok,
status and statusText, and the body text as `raw` — it does not throw. -/
theorem davRequest_degenerate (davResponse : TransportResponse) (parseOutgoing : Bool)
    (decoded : List (Option MultistatusResponseBody))
    (h : fetchOk davResponse = false ∨ contentTypeHasXml davResponse.contentType = false ∨
      parseOutgoing = false) :
    davRequest davResponse parseOutgoing decoded =
      [⟨some (.str davResponse.url), davResponse.status, davResponse.statusText,
        fetchOk davResponse, none, .text davResponse.bodyText⟩] := by
  unfold davRequest
  rcases h with h | h | h <;> simp [h]

/-- Claim C8 (witness): a 404 HTML response yields exactly the synthetic
envelope. -/
theorem davRequest_degenerate_witness :
    davRequest respHtml404 true [] =
      [⟨some (.str respHtml404.url), respHtml404.status, respHtml404.statusText,
        fetchOk respHtml404, none, .text respHtml404.bodyText⟩] :=
  davRequest_degenerate respHtml404 true [] (Or.inl (by decide))

/-- Claim C7 (counterexample): a response element CAN carry an `error` child and
still be mapped with `ok = true`: the decoder coerces an `error` element whose
text is the word `false` to the boolean `false`, and the mapping computes
`ok` as the negation of the decoded value's truthiness, not of its presence. -/
theorem davRequest_ok_counterexample :
    ((davRequest respXmlC7 true [some bodyErrFalse]).map fun r => r.ok) = [true] ∧
      bodyErrFalse.error = some (.bool false) := by
  decide

/-- Claim C7 (amended): for every response element of a parsed multistatus
body, `ok` is true iff the decoded `error` value is absent or falsy; in
particular, for any `error` element decoding to a truthy value — every
ordinary error element — `ok` is false. -/
theorem davRequest_ok_iff_error_falsy (davResponse : TransportResponse)
    (body : MultistatusResponseBody)
    (hok : fetchOk davResponse = true)
    (hct : contentTypeHasXml davResponse.contentType = true) :
    ((davRequest davResponse true [some body]).map fun r => r.ok) = [true] ↔
      (body.error = none ∨ ∀ v, body.error = some v → jsTruthy v = false) := by
  unfold davRequest
  simp only [hok, hct, Bool.not_true, Bool.or_self, Bool.false_or, Bool.or_false]
  simp only [Bool.false_eq_true, if_false, List.map_cons, List.map_nil]
  unfold mapResponseBody
  cases herr : body.error with
  | none => simp [jsOptTruthy, herr]
  | some v => simp [jsOptTruthy, herr]

/-- Claim C7 (witness): the amended characterization at a concrete truthy
error element: `ok` comes out false. -/
theorem davRequest_ok_iff_error_falsy_witness :
    (((davRequest respXmlC7 true [some bodyErrTrue]).map fun r => r.ok) = [true] ↔
      (bodyErrTrue.error = none ∨ ∀ v, bodyErrTrue.error = some v → jsTruthy v = false)) :=
  davRequest_ok_iff_error_falsy respXmlC7 bodyErrTrue (by decide) (by decide)

/-- Claim C1 (counterexample): with a configured `proxyUrl`, the URL handed to
`fetch` by `davRequest` is NOT `proxyUrl + url`. -/
theorem davRequest_proxy_counterexample :
    davRequestFetchUrl "https://proxy.example/" "cal.php" ≠
      "https://proxy.example/" ++ "cal.php" := by
  decide

/-- Claim C1 (amended): the URL handed to `fetch` by `davRequest` is always the
hard-coded constant `__PROXY_URL__ = http://localhost:8001/` prefixed to
`url`; the caller's `proxyUrl` has no effect on it. -/
theorem davRequest_proxy_constant (proxyUrl proxyUrl' url : String) :
    davRequestFetchUrl proxyUrl url = PROXY_URL ++ url ∧
      davRequestFetchUrl proxyUrl url = davRequestFetchUrl proxyUrl' url :=
  ⟨rfl, rfl⟩

/-- Claim C1 (witness): the amended statement at concrete strings. -/
theorem davRequest_proxy_constant_witness :
    davRequestFetchUrl "https://proxy.example/" "cal.php" = PROXY_URL ++ "cal.php" ∧
      davRequestFetchUrl "https://proxy.example/" "cal.php" =
        davRequestFetchUrl "" "cal.php" :=
  davRequest_proxy_constant "https://proxy.example/" "" "cal.php"

/-- Claim C9: provided every calendar-typed response carries a component set
(the source's unguarded access throws otherwise), `fetchCalendars` keeps
exactly the responses whose resourcetype contains `calendar` and whose
supported component set intersects the known iCalendar component set. -/
theorem fetchCalendars_filter (responses : List CalendarPropfindResponse)
    (h : ∀ r ∈ responses, isCalendarResourcetype r = true → r.components ≠ none) :
    fetchCalendarsSelect responses = .ok (responses.filter keepsCalendarClaim) := by
  induction responses with
  | nil => rfl
  | cons r rest ih =>
      have hrest := ih fun r' hr' => h r' (List.mem_cons_of_mem _ hr')
      unfold fetchCalendarsSelect at hrest ⊢
      by_cases hc : isCalendarResourcetype r = true
      · obtain ⟨comps, hcomps⟩ : ∃ c, r.components = some c := by
          cases hx : r.components with
          | none => exact absurd hx (h r (List.mem_cons_self _ _) hc)
          | some c => exact ⟨c, rfl⟩
        rw [List.filter_cons_of_pos hc]
        unfold filterICalFormat
        rw [hcomps, hrest]
        rw [List.filter_cons]
        have hk : keepsCalendarClaim r = (comps.any fun c => ICALObjects.contains c) := by
          unfold keepsCalendarClaim
          rw [hc, hcomps]
          simp
        rw [hk]
      · have hc' : isCalendarResourcetype r = false := by
          cases hx : isCalendarResourcetype r
          · rfl
          · exact absurd hx hc
        rw [List.filter_cons_of_neg hc, hrest, List.filter_cons]
        have hk : keepsCalendarClaim r = false := by
          unfold keepsCalendarClaim
          simp [hc']
        rw [hk]
        simp

/-- Claim C9 (witness): of a home collection (no calendar resourcetype), a
VJOURNAL-only calendar and a VMESSAGE-only calendar, exactly the VJOURNAL one
is kept. -/
theorem fetchCalendars_filter_witness :
    fetchCalendarsSelect [respHome, respVJournal, respVMessage] =
        .ok ([respHome, respVJournal, respVMessage].filter keepsCalendarClaim) ∧
      [respHome, respVJournal, respVMessage].filter keepsCalendarClaim = [respVJournal] :=
  ⟨fetchCalendars_filter [respHome, respVJournal, respVMessage] (by decide), by decide⟩

/-- Claim C6 (counterexample): on a failed discovery the returned rootUrl is
NOT the account's `serverUrl` string: the code returns `endpoint.href`, the
WHATWG-normalized serverUrl, which for `https://example.com` is
`https://example.com/` — a different string. -/
theorem serviceDiscovery_counterexample :
    serviceDiscovery "https://example.com" "caldav" none ≠
        Except.ok "https://example.com" ∧
      serviceDiscovery "https://example.com" "caldav" none =
        Except.ok "https://example.com/" := by
  decide

/-- Claim C6 (amended): whenever `serverUrl` parses as a URL and the well-known
probe fails in the claimed sense (transport error, or no 3xx status with a
non-empty Location header), `serviceDiscovery` returns `new URL(serverUrl).href`
— the normalized serverUrl, equal to `serverUrl` itself exactly when that
string is already in normalized form — and raises no error. -/
theorem serviceDiscovery_failure_href (serverUrl accountType : String)
    (fetchOutcome : Option WellKnownResponse) (endpoint : URLRec)
    (hparse : parseURL serverUrl = some endpoint)
    (hfail : ∀ response, fetchOutcome = some response →
      (300 ≤ response.status ∧ response.status < 400) →
        ∀ location, response.location = some location → location = "") :
    serviceDiscovery serverUrl accountType fetchOutcome = .ok (urlHref endpoint) := by
  unfold serviceDiscovery
  rw [hparse]
  cases fetchOutcome with
  | none => rfl
  | some response =>
      by_cases h3 : 300 ≤ response.status ∧ response.status < 400
      · cases hloc : response.location with
        | none => simp [h3, hloc]
        | some location =>
            have hempty : location = "" := hfail response rfl h3 location hloc
            subst hempty
            have he : "".isEmpty = true := rfl
            simp [h3, hloc, he]
      · simp [h3]

/-- Claim C6 (witness): a 404 probe on a server with an explicit port falls
back to the endpoint href. -/
theorem serviceDiscovery_failure_href_witness :
    serviceDiscovery "https://example.com:8443" "caldav" (some ⟨404, none⟩) =
      .ok (urlHref ⟨"https", "example.com", "8443", "/"⟩) :=
  serviceDiscovery_failure_href "https://example.com:8443" "caldav" (some ⟨404, none⟩)
    ⟨"https", "example.com", "8443", "/"⟩ (by decide)
    (by
      intro response hresp h3 location hloc
      cases hresp
      exact absurd h3 (by decide))

/-- Claim C5 (witness): the characterization evaluated at concrete URLs. -/
theorem urlContains_characterization_witness :
    urlContains "https://ex.com/cal/" "/cal" =
        urlContainsAmended "https://ex.com/cal/" "/cal" ∧
      urlContains "https://ex.com/cal/" "/cal" =
        urlContains "/cal" "https://ex.com/cal/" ∧
      urlContains "https://ex.com/cal/" "https://ex.com/cal/" = true :=
  urlContains_characterization "https://ex.com/cal/" "/cal"

end Tsdav
